import Mathlib

/-!
Verification of the credential-vault and exchange-session lifecycle of the
dashboard backend.  The Python sources are shallowly embedded:

* `src/utils/crypto.py` — `EncryptionManager` wrapping the (external) Fernet
  cipher.  The Fernet library itself is not part of the repository, so its
  authenticated-encryption behaviour is modelled from the specification.
* `src/bybit_service.py` — the process-wide single-slot session cache
  (`get_bybit_client`, `reset_bybit_client`) and the `BybitClientWrapper`
  query methods (`get_account_info`, `get_positions`).
* `src/api_keys.py` — the `add`, `test` and `remove` credential endpoints.
* `src/positions.py` — the positions route that formats and filters rows.
* `src/models.py` — the `ExchangeAPI` record and the `Event` log row.

Byte strings (Python `str` values that are encrypted or compared byte-wise)
are represented as `List Nat` of their UTF-8 bytes; venue names are Lean
`String`s.  Database tables are lists of records; SQLAlchemy's
`query(...).first()` is `List.find?` and `db.delete(row)` of a found row is
`List.eraseP` (delete the first matching row).  Exceptions are `Except`;
oracles (`ctorOk`, `valid`) stand for the outcome of external venue calls.
-/

namespace Butiba

/-! ### Secret cipher: spec-modelled Fernet plus the source wrapper -/

/-- Error raised by `EncryptionManager.decrypt` (the source logs and
re-raises the underlying Fernet `InvalidToken`). -/
inductive DecryptionError where
  | invalidToken
deriving DecidableEq, Repr

/-- Modelled from the spec: the Fernet token produced by the external
`cryptography.fernet` library, absent from the repository. Per the spec it is
"a self-contained token (embeds any nonce/IV and an integrity tag)". The tag
is an idealised MAC: recomputable only with the key. -/
structure FernetToken where
  nonce : Nat
  ct : List Nat
  tag : Nat × Nat × List Nat
deriving DecidableEq, Repr

/-- Modelled from the spec: the idealised integrity tag over key, nonce and
ciphertext (a perfect MAC: collisions across distinct keys do not occur). -/
def fernetMac (key nonce : Nat) (ct : List Nat) : Nat × Nat × List Nat :=
  (key, nonce, ct)

/-- Modelled from the spec: per-byte keyed transformation of the plaintext
byte stream (bytes are natural numbers below 256). -/
def encByte (key nonce b : Nat) : Nat :=
  (b + key + nonce) % 256

/-- Modelled from the spec: inverse of `encByte` on bytes below 256. -/
def decByte (key nonce c : Nat) : Nat :=
  (c + 256 - (key + nonce) % 256) % 256

/-- Modelled from the spec: `Fernet.encrypt` — authenticated symmetric
encryption producing a self-contained token. -/
def fernetEncrypt (key nonce : Nat) (msg : List Nat) : FernetToken :=
  let ct := msg.map (encByte key nonce)
  ⟨nonce, ct, fernetMac key nonce ct⟩

/-- Modelled from the spec: `Fernet.decrypt` — verifies the integrity tag
under the supplied key and fails with an invalid-token error when it does not
verify (malformed token, tampered ciphertext, or different key). -/
def fernetDecrypt (key : Nat) (tok : FernetToken) :
    Except DecryptionError (List Nat) :=
  if tok.tag = fernetMac key tok.nonce tok.ct then
    .ok (tok.ct.map (decByte key tok.nonce))
  else
    .error .invalidToken

/-- The encryption manager of `src/utils/crypto.py`: holds the process-wide
key (supplied or freshly generated) and delegates to the Fernet cipher. -/
structure EncryptionManager where
  key : Nat
deriving DecidableEq, Repr

/-- `EncryptionManager.encrypt` (src/utils/crypto.py lines 19-21):
UTF-8-encode and encrypt; the fresh nonce chosen by the library is made an
explicit argument. -/
def EncryptionManager.encrypt (m : EncryptionManager) (nonce : Nat)
    (data : List Nat) : FernetToken :=
  fernetEncrypt m.key nonce data

/-- `EncryptionManager.decrypt` (src/utils/crypto.py lines 23-29): decrypt,
re-raising any failure of the underlying cipher. -/
def EncryptionManager.decrypt (m : EncryptionManager) (tok : FernetToken) :
    Except DecryptionError (List Nat) :=
  fernetDecrypt m.key tok

/-! ### Exchange session cache (src/bybit_service.py) -/

/-- `BybitClientWrapper.__init__` stores the credential triple
(src/bybit_service.py lines 28-40); the underlying `HTTP` object is opaque. -/
structure BybitClientWrapper where
  api_key : List Nat
  api_secret : List Nat
  testnet : Bool
deriving DecidableEq, Repr

/-- The module-level mutable state of `bybit_service.py`: the globals
`_bybit_client` (line 21) and `_testnet_mode` (line 22). -/
structure BybitState where
  client : Option BybitClientWrapper
  testnet_mode : Bool
deriving DecidableEq, Repr

/-- The initial module state: `_bybit_client = None`, `_testnet_mode = False`. -/
def initialBybitState : BybitState :=
  ⟨none, false⟩

/-- `get_bybit_client` (src/bybit_service.py lines 117-144). Rebuilds the
cached client when it is absent, the global testnet mode differs, or the
cached key differs (the secret is not compared). `ctorOk` is the oracle for
whether the `BybitClientWrapper` constructor raises; on a raise the state is
unchanged and the exception propagates. -/
def get_bybit_client (st : BybitState) (api_key api_secret : List Nat)
    (testnet ctorOk : Bool) :
    Except Unit (BybitClientWrapper × BybitState) :=
  match st.client with
  | none =>
      if ctorOk then
        let c : BybitClientWrapper := ⟨api_key, api_secret, testnet⟩
        .ok (c, ⟨some c, testnet⟩)
      else
        .error ()
  | some c =>
      if st.testnet_mode ≠ testnet ∨ c.api_key ≠ api_key then
        if ctorOk then
          let c' : BybitClientWrapper := ⟨api_key, api_secret, testnet⟩
          .ok (c', ⟨some c', testnet⟩)
        else
          .error ()
      else
        .ok (c, st)

/-- `reset_bybit_client` (src/bybit_service.py lines 147-151): clears the
cached client; the `_testnet_mode` global is left as it was. -/
def reset_bybit_client (st : BybitState) : BybitState :=
  { st with client := none }

/-! ### Venue query methods of the wrapper (src/bybit_service.py) -/

/-- Outcome of an underlying venue call: the call raised, the response was
falsy (`None` or empty), or a response dict with a `retCode` and a `result`
payload was returned. -/
inductive VenueResp (α : Type) where
  | raised
  | falsy
  | resp (retCode : Int) (result : α)
deriving DecidableEq, Repr

/-- A failing venue call in the sense of the spec: transport error or
exception (`raised`), empty response (`falsy`), or a non-ok status code. -/
def VenueResp.isFailure {α : Type} : VenueResp α → Prop
  | .raised => True
  | .falsy => True
  | .resp retCode _ => retCode ≠ 0

instance {α : Type} (r : VenueResp α) : Decidable r.isFailure := by
  cases r <;> simp [VenueResp.isFailure] <;> infer_instance

/-- One row of the wallet-balance `list` payload; absent dict keys are
`none` and default to `0` via `.get(key, 0)`. -/
structure WalletRow where
  totalWalletBalance : Option Int
  totalEquity : Option Int
  totalAvailableBalance : Option Int
  totalUnrealisedLoss : Option Int
deriving DecidableEq, Repr

/-- The dict returned by `get_account_info` (src/bybit_service.py
lines 74-79 and 82-96). -/
structure AccountInfo where
  total_wallet_balance : Int
  total_equity : Int
  available_balance : Int
  total_unrealised_loss : Int
deriving DecidableEq, Repr

/-- The all-zero sentinel record returned on any failure. -/
def zeroAccountInfo : AccountInfo :=
  ⟨0, 0, 0, 0⟩

/-- Field extraction of src/bybit_service.py lines 74-79: each field defaults
to 0 when the key is absent. -/
def accountInfoOfRow (row : WalletRow) : AccountInfo :=
  ⟨row.totalWalletBalance.getD 0, row.totalEquity.getD 0,
   row.totalAvailableBalance.getD 0, row.totalUnrealisedLoss.getD 0⟩

/-- `BybitClientWrapper.get_account_info` (src/bybit_service.py lines
56-96). The payload is the optional `list` field of the `result` dict:
`data.get('list', [{}])[0]` uses an empty row when the key is absent, and
indexing an empty present list raises, which the handler converts to the
all-zero record. Any exception or non-ok code also yields all zeros. -/
def get_account_info (r : VenueResp (Option (List WalletRow))) : AccountInfo :=
  match r with
  | .resp 0 listData =>
      match listData with
      | none => accountInfoOfRow ⟨none, none, none, none⟩
      | some [] => zeroAccountInfo
      | some (row :: _) => accountInfoOfRow row
  | _ => zeroAccountInfo

/-- One row of the venue's position/order `list` payload; dict fields are
optional and default under `float(pos.get(k, d))`. -/
structure PositionRow where
  symbol : Option String
  side : Option String
  size : Option Int
  entryPrice : Option Int
  markPrice : Option Int
  unrealisedPnl : Option Int
  unrealisedPnlPct : Option Int
  leverage : Option Int
  positionIdx : Option Nat
deriving DecidableEq, Repr

/-- `BybitClientWrapper.get_positions` (src/bybit_service.py lines 98-112):
returns `result['list']` unchanged on an ok response (defaulting to `[]`
when the key is absent) and `[]` on any failure. No filtering is applied. -/
def wrapper_get_positions (r : VenueResp (Option (List PositionRow))) :
    List PositionRow :=
  match r with
  | .resp 0 listData => listData.getD []
  | _ => []

/-! ### Positions route (src/positions.py) -/

/-- One formatted entry of the positions endpoint response
(src/positions.py lines 57-67). -/
structure FormattedPosition where
  symbol : Option String
  side : Option String
  size : Int
  entry_price : Int
  mark_price : Int
  pnl : Int
  pnl_percent : Int
  leverage : Int
  position_id : Option Nat
deriving DecidableEq, Repr

/-- The per-row formatting of src/positions.py lines 57-67. -/
def formatPosition (p : PositionRow) : FormattedPosition :=
  ⟨p.symbol, p.side, p.size.getD 0, p.entryPrice.getD 0, p.markPrice.getD 0,
   p.unrealisedPnl.getD 0, p.unrealisedPnlPct.getD 0 * 100,
   p.leverage.getD 1, p.positionIdx⟩

/-- The formatting loop of the positions route (src/positions.py lines
52-67): keep only rows whose parsed size is strictly positive. -/
def routes_format_positions (rows : List PositionRow) :
    List FormattedPosition :=
  rows.filterMap fun p =>
    if 0 < p.size.getD 0 then some (formatPosition p) else none

/-! ### Persistent records (src/models.py) and the API endpoints
(src/api_keys.py) -/

/-- The `ExchangeAPI` credential record (src/models.py lines 31-80),
restricted to the fields the endpoints read or write. -/
structure ExchangeAPIRec where
  exchange : String
  api_key_encrypted : FernetToken
  api_secret_encrypted : FernetToken
  testnet : Bool
  is_connected : Bool
deriving DecidableEq, Repr

/-- An `Event` log row (src/models.py lines 210-244), reduced to the fields
that would identify an audit entry. -/
structure EventRec where
  event_type : String
  title : String
deriving DecidableEq, Repr

/-- Python's `str.lower()`, applied to venue names before comparison and
storage (src/api_keys.py lines 89, 118, 127, 235). -/
def strToLower (s : String) : String :=
  ⟨s.data.map Char.toLower⟩

/-- HTTP error outcomes raised by the credential endpoints. -/
inductive ApiError where
  | badRequest
  | unauthorized
  | notFound
deriving DecidableEq, Repr

/-- The success payload of `add_api_keys` (src/api_keys.py lines 141-147). -/
structure AddResponse where
  exchange : String
  testnet : Bool
deriving DecidableEq, Repr

/-- The store mutation of `add_api_keys` (src/api_keys.py lines 116-137):
delete the first existing record for the venue, then insert the fresh
record with `is_connected = True`. -/
def upsert_record (db : List ExchangeAPIRec) (venue : String)
    (encKey encSecret : FernetToken) (testnet : Bool) : List ExchangeAPIRec :=
  db.eraseP (fun r => r.exchange == venue) ++
    [⟨venue, encKey, encSecret, testnet, true⟩]

/-- `add_api_keys` (src/api_keys.py lines 75-156). Arguments: the request
fields, the encryption manager with the two fresh nonces its cipher draws,
the database table, the event log, the session-cache state, and the oracles
`ctorOk` (does the venue-client constructor raise?) and `valid` (result of
`validate_credentials`, which never raises). Returns the HTTP outcome and
the final table, event log and session state. Note the 401 raised on an
invalid validation is itself re-caught at line 109 and re-raised as 401. -/
def add_api_keys (exchange : String) (api_key api_secret : List Nat)
    (testnet : Bool) (em : EncryptionManager) (n1 n2 : Nat)
    (db : List ExchangeAPIRec) (events : List EventRec) (st : BybitState)
    (ctorOk valid : Bool) :
    Except ApiError AddResponse × List ExchangeAPIRec × List EventRec ×
      BybitState :=
  if api_key = [] ∨ api_secret = [] then
    (.error .badRequest, db, events, st)
  else if strToLower exchange ≠ "bybit" then
    (.error .badRequest, db, events, st)
  else
    let encrypted_key := em.encrypt n1 api_key
    let encrypted_secret := em.encrypt n2 api_secret
    match get_bybit_client st api_key api_secret testnet ctorOk with
    | .error _ => (.error .unauthorized, db, events, st)
    | .ok (_, st') =>
        if valid then
          (.ok ⟨exchange, testnet⟩,
           upsert_record db (strToLower exchange) encrypted_key
             encrypted_secret testnet,
           events, st')
        else
          (.error .unauthorized, db, events, reset_bybit_client st')

/-- The response of the test endpoint: the venue accepted the keys, rejected
them, or an exception was converted to an error payload (src/api_keys.py
lines 205-224). -/
inductive TestResponse where
  | valid
  | invalid
  | errored
deriving DecidableEq, Repr

/-- `test_api_keys` (src/api_keys.py lines 190-224). Every exception —
including the 400 raised on missing fields and a venue-client constructor
raise — is caught at line 218 and turned into an error payload, with the
session cache left as it was; only when `get_bybit_client` returns does the
endpoint reach the `reset_bybit_client()` call at line 203. -/
def test_api_keys (api_key api_secret : List Nat) (testnet : Bool)
    (st : BybitState) (ctorOk valid : Bool) : TestResponse × BybitState :=
  if api_key = [] ∨ api_secret = [] then
    (.errored, st)
  else
    match get_bybit_client st api_key api_secret testnet ctorOk with
    | .error _ => (.errored, st)
    | .ok (_, st') =>
        let st'' := reset_bybit_client st'
        if valid then (.valid, st'') else (.invalid, st'')

/-- `remove_api_keys` (src/api_keys.py lines 227-264): 404 when no record
for the venue exists; otherwise delete the found record, then reset the
session cache. No event row is written. -/
def remove_api_keys (exchange : String) (db : List ExchangeAPIRec)
    (events : List EventRec) (st : BybitState) :
    Except ApiError Unit × List ExchangeAPIRec × List EventRec × BybitState :=
  match db.find? (fun r => r.exchange == strToLower exchange) with
  | none => (.error .notFound, db, events, st)
  | some _ =>
      (.ok (), db.eraseP (fun r => r.exchange == strToLower exchange), events,
       reset_bybit_client st)

/-! ### Theorems -/

/-- Byte-level inverse: decrypting an encrypted byte below 256 recovers it. -/
theorem decByte_encByte (key nonce b : Nat) (hb : b < 256) :
    decByte key nonce (encByte key nonce b) = b := by
  unfold decByte encByte
  omega

/-- C5: for every byte string `s` (the UTF-8 encoding of the plaintext) and
every cipher key, decrypting the encryption of `s` under the same key yields
`s`: decryption is a left inverse of encryption. -/
theorem decrypt_encrypt_roundtrip (m : EncryptionManager) (nonce : Nat)
    (s : List Nat) (hs : ∀ b ∈ s, b < 256) :
    m.decrypt (m.encrypt nonce s) = .ok s := by
  unfold EncryptionManager.decrypt EncryptionManager.encrypt fernetDecrypt
    fernetEncrypt
  rw [if_pos rfl]
  simp only [List.map_map, Except.ok.injEq]
  calc s.map (decByte m.key nonce ∘ encByte m.key nonce)
      = s.map id := List.map_congr_left fun b hb => decByte_encByte _ _ b (hs b hb)
    _ = s := List.map_id s

/-- Witness for C5 at a concrete key, nonce and plaintext. -/
theorem decrypt_encrypt_roundtrip_witness :
    EncryptionManager.decrypt ⟨5⟩ (EncryptionManager.encrypt ⟨5⟩ 7 [104, 105]) =
      .ok [104, 105] :=
  decrypt_encrypt_roundtrip ⟨5⟩ 7 [104, 105] (by decide)

/-- C6: decryption fails with a `DecryptionError` on every token whose
integrity tag does not verify under the current key (malformed or tampered
tokens), and in particular decrypting under key B a token produced under a
different key A always fails. -/
theorem decrypt_fails_on_bad_token :
    (∀ (mA mB : EncryptionManager) (nonce : Nat) (s : List Nat),
       mA.key ≠ mB.key →
       mB.decrypt (mA.encrypt nonce s) = .error .invalidToken) ∧
    (∀ (m : EncryptionManager) (tok : FernetToken),
       tok.tag ≠ fernetMac m.key tok.nonce tok.ct →
       m.decrypt tok = .error .invalidToken) := by
  constructor
  · intro mA mB nonce s hkey
    unfold EncryptionManager.decrypt EncryptionManager.encrypt fernetDecrypt
      fernetEncrypt fernetMac
    rw [if_neg]
    intro h
    exact hkey (congrArg Prod.fst h)
  · intro m tok htag
    unfold EncryptionManager.decrypt fernetDecrypt
    rw [if_neg htag]

/-- Witness for C6: a concrete cross-key decryption and a concrete
tampered token both fail. -/
theorem decrypt_fails_on_bad_token_witness :
    EncryptionManager.decrypt ⟨1⟩ (EncryptionManager.encrypt ⟨0⟩ 3 [65]) =
      .error .invalidToken ∧
    EncryptionManager.decrypt ⟨1⟩ ⟨3, [65], (2, 3, [65])⟩ =
      .error .invalidToken :=
  ⟨decrypt_fails_on_bad_token.1 ⟨0⟩ ⟨1⟩ 3 [65] (by decide),
   decrypt_fails_on_bad_token.2 ⟨1⟩ ⟨3, [65], (2, 3, [65])⟩ (by decide)⟩

/-- C1: the session cache is a single slot keyed by api-key and
network-mode. (1) When the cache is absent, `obtain` constructs a client
bound to the requested triple. (2) When the cached client's key or mode
differs from the request, it reconstructs. (3) When key and mode match, the
existing session is returned unchanged — the secret is not compared, so a
request with a different secret still gets the session bound to the old
secret. (4) Alternating requests for two triples that differ in key or mode
reconstruct on every call. -/
theorem get_bybit_client_single_slot_cache :
    (∀ (st : BybitState) (k s : List Nat) (m : Bool),
       st.client = none →
       get_bybit_client st k s m true =
         .ok (⟨k, s, m⟩, ⟨some ⟨k, s, m⟩, m⟩)) ∧
    (∀ (st : BybitState) (c : BybitClientWrapper) (k s : List Nat) (m : Bool),
       st.client = some c → st.testnet_mode = c.testnet →
       (c.testnet ≠ m ∨ c.api_key ≠ k) →
       get_bybit_client st k s m true =
         .ok (⟨k, s, m⟩, ⟨some ⟨k, s, m⟩, m⟩)) ∧
    (∀ (st : BybitState) (c : BybitClientWrapper) (k s : List Nat) (m : Bool),
       st.client = some c → st.testnet_mode = c.testnet →
       c.testnet = m → c.api_key = k →
       get_bybit_client st k s m true = .ok (c, st)) ∧
    (∀ (k1 s1 : List Nat) (m1 : Bool) (k2 s2 : List Nat) (m2 : Bool),
       k1 ≠ k2 ∨ m1 ≠ m2 →
       get_bybit_client ⟨some ⟨k1, s1, m1⟩, m1⟩ k2 s2 m2 true =
         .ok (⟨k2, s2, m2⟩, ⟨some ⟨k2, s2, m2⟩, m2⟩) ∧
       get_bybit_client ⟨some ⟨k2, s2, m2⟩, m2⟩ k1 s1 m1 true =
         .ok (⟨k1, s1, m1⟩, ⟨some ⟨k1, s1, m1⟩, m1⟩)) := by
  refine ⟨?_, ?_, ?_, ?_⟩
  · intro st k s m h
    simp [get_bybit_client, h]
  · intro st c k s m h hmode hdiff
    have hc : st.testnet_mode ≠ m ∨ c.api_key ≠ k := by
      rcases hdiff with hd | hd
      · exact Or.inl (by rw [hmode]; exact hd)
      · exact Or.inr hd
    simp [get_bybit_client, h, if_pos hc]
  · intro st c k s m h hmode hm hk
    have hc : ¬(st.testnet_mode ≠ m ∨ c.api_key ≠ k) := by
      rw [not_or, not_not, not_not]
      exact ⟨hmode.trans hm, hk⟩
    simp [get_bybit_client, h, if_neg hc]
  · intro k1 s1 m1 k2 s2 m2 hdiff
    have hc1 : m1 ≠ m2 ∨ k1 ≠ k2 := by
      rcases hdiff with hd | hd
      · exact Or.inr hd
      · exact Or.inl hd
    have hc2 : m2 ≠ m1 ∨ k2 ≠ k1 := by
      rcases hdiff with hd | hd
      · exact Or.inr (Ne.symm hd)
      · exact Or.inl (Ne.symm hd)
    exact ⟨by simp [get_bybit_client, if_pos hc1],
           by simp [get_bybit_client, if_pos hc2]⟩

/-- Witness for C1: a concrete absent-cache construction, a concrete
same-key-and-mode hit under a different secret, and a concrete alternating
reconstruction. -/
theorem get_bybit_client_single_slot_cache_witness :
    get_bybit_client ⟨none, false⟩ [1] [2] false true =
      .ok (⟨[1], [2], false⟩, ⟨some ⟨[1], [2], false⟩, false⟩) ∧
    get_bybit_client ⟨some ⟨[1], [2], false⟩, false⟩ [1] [9] false true =
      .ok (⟨[1], [2], false⟩, ⟨some ⟨[1], [2], false⟩, false⟩) ∧
    get_bybit_client ⟨some ⟨[1], [2], false⟩, false⟩ [4] [5] false true =
      .ok (⟨[4], [5], false⟩, ⟨some ⟨[4], [5], false⟩, false⟩) :=
  ⟨get_bybit_client_single_slot_cache.1 ⟨none, false⟩ [1] [2] false rfl,
   get_bybit_client_single_slot_cache.2.2.1 ⟨some ⟨[1], [2], false⟩, false⟩
     ⟨[1], [2], false⟩ [1] [9] false rfl rfl rfl rfl,
   (get_bybit_client_single_slot_cache.2.2.2 [1] [2] false [4] [5] false
      (Or.inl (by decide))).1⟩

/-- C7: on every failing venue call (exception, falsy response, or non-ok
status code) `get_account_info` returns the all-zero record and the
session-level `get_positions` returns the empty list; both functions are
total, so no exception crosses the session boundary. -/
theorem venue_failure_sentinels (ra : VenueResp (Option (List WalletRow)))
    (rp : VenueResp (Option (List PositionRow)))
    (ha : ra.isFailure) (hp : rp.isFailure) :
    get_account_info ra = zeroAccountInfo ∧ wrapper_get_positions rp = [] := by
  constructor
  · cases ra with
    | raised => rfl
    | falsy => rfl
    | resp retCode res =>
        simp only [VenueResp.isFailure] at ha
        unfold get_account_info
        split
        · rename_i heq
          injection heq with h1 _
          exact absurd h1 ha
        · rfl
  · cases rp with
    | raised => rfl
    | falsy => rfl
    | resp retCode res =>
        simp only [VenueResp.isFailure] at hp
        unfold wrapper_get_positions
        split
        · rename_i heq
          injection heq with h1 _
          exact absurd h1 hp
        · rfl

/-- Witness for C7 at a concrete raised call and a concrete non-ok code. -/
theorem venue_failure_sentinels_witness :
    get_account_info .raised = zeroAccountInfo ∧
      wrapper_get_positions (.resp 10001 (some [])) = [] :=
  venue_failure_sentinels .raised (.resp 10001 (some []))
    (by trivial) (by decide)

/-- C8 counterexample: on a successful venue response whose list contains a
zero-size entry, the session-level `get_positions`
(`BybitClientWrapper.get_positions`) returns that entry unfiltered, so the
claim that no returned position has size 0 is false. -/
theorem wrapper_get_positions_zero_size_counterexample :
    ¬ (∀ p ∈ wrapper_get_positions
          (.resp 0 (some [⟨none, none, some 0, none, none, none, none, none,
            none⟩])),
        p.size.getD 0 ≠ 0) := by
  decide

/-- C8 amended: the session-level `get_positions` returns the venue's list
unchanged (no filtering of zero-size entries); the filtering happens one
layer up, in the positions route of `src/positions.py`, whose formatted
output contains only entries of strictly positive size. -/
theorem positions_filtering_in_route :
    (∀ (rows : List PositionRow),
       wrapper_get_positions (.resp 0 (some rows)) = rows) ∧
    (∀ (rows : List PositionRow) (fp : FormattedPosition),
       fp ∈ routes_format_positions rows → 0 < fp.size) := by
  constructor
  · intro rows
    rfl
  · intro rows fp hfp
    unfold routes_format_positions at hfp
    rw [List.mem_filterMap] at hfp
    obtain ⟨p, _, hp⟩ := hfp
    by_cases h : 0 < p.size.getD 0
    · rw [if_pos h] at hp
      injection hp with hp
      rw [← hp]
      simpa [formatPosition] using h
    · rw [if_neg h] at hp
      exact absurd hp (by simp)

/-- Witness for C8's amended statement at a concrete row list. -/
theorem positions_filtering_in_route_witness :
    wrapper_get_positions
        (.resp 0 (some ([] : List PositionRow))) = [] ∧
    0 < (formatPosition ⟨none, none, some 5, none, none, none, none, none,
          none⟩).size :=
  ⟨positions_filtering_in_route.1 [],
   positions_filtering_in_route.2
     [⟨none, none, some 5, none, none, none, none, none, none⟩]
     (formatPosition ⟨none, none, some 5, none, none, none, none, none, none⟩)
     (by decide)⟩

/-- C10 counterexample: a test request with an empty api-key field — and
likewise one on which the client constructor raises — is caught by the
blanket exception handler before `reset_bybit_client()` runs, so the
previously bound session survives: the cache is not left absent after every
test request. -/
theorem test_api_keys_cache_survives_counterexample :
    (test_api_keys [] [9] false ⟨some ⟨[1], [2], false⟩, false⟩ true
        true).2 = ⟨some ⟨[1], [2], false⟩, false⟩ ∧
    (test_api_keys [7] [8] false ⟨some ⟨[1], [2], false⟩, false⟩ false
        true).2 = ⟨some ⟨[1], [2], false⟩, false⟩ ∧
    (⟨some ⟨[1], [2], false⟩, false⟩ : BybitState).client ≠ none := by
  decide

/-- C10 amended: when both credential fields are nonempty and obtaining the
client does not raise, the test endpoint always resets the cache to absent
(whether validation succeeds or fails); when a field is missing or obtaining
the client raises, the exception handler returns early and the cache is left
exactly as it was. -/
theorem test_api_keys_cache_effect (k s : List Nat) (m : Bool)
    (st : BybitState) (ctorOk valid : Bool) :
    ((k ≠ [] ∧ s ≠ [] ∧ ∃ pr, get_bybit_client st k s m ctorOk = .ok pr) →
       (test_api_keys k s m st ctorOk valid).2.client = none) ∧
    ((k = [] ∨ s = [] ∨ get_bybit_client st k s m ctorOk = .error ()) →
       (test_api_keys k s m st ctorOk valid).2 = st) := by
  constructor
  · rintro ⟨hk, hs, ⟨c, st'⟩, hok⟩
    unfold test_api_keys
    rw [if_neg (by simp [hk, hs]), hok]
    cases valid <;> rfl
  · intro h
    unfold test_api_keys
    by_cases hempty : k = [] ∨ s = []
    · rw [if_pos hempty]
    · rw [if_neg hempty]
      rcases h with hk | hs | herr
      · exact absurd (Or.inl hk) hempty
      · exact absurd (Or.inr hs) hempty
      · rw [herr]

/-- Witness for C10's amended statement: a concrete reset on success and a
concrete untouched state on a missing field. -/
theorem test_api_keys_cache_effect_witness :
    (test_api_keys [1] [2] false ⟨some ⟨[3], [4], true⟩, true⟩ true
        true).2.client = none ∧
    (test_api_keys [] [2] false ⟨some ⟨[3], [4], true⟩, true⟩ true
        true).2 = ⟨some ⟨[3], [4], true⟩, true⟩ :=
  ⟨(test_api_keys_cache_effect [1] [2] false ⟨some ⟨[3], [4], true⟩, true⟩
      true true).1
      ⟨by decide, by decide, ⟨⟨[1], [2], false⟩,
        ⟨some ⟨[1], [2], false⟩, false⟩⟩, rfl⟩,
   (test_api_keys_cache_effect [] [2] false ⟨some ⟨[3], [4], true⟩, true⟩
      true true).2 (Or.inl rfl)⟩

/-- In a list holding at most one element satisfying `p`, deleting the first
such element leaves none. This is the uniqueness constraint of the
`exchange` column (src/models.py line 45) carried through a delete. -/
theorem countP_eraseP_self_eq_zero {α : Type} (p : α → Bool) (l : List α)
    (h : l.countP p ≤ 1) : (l.eraseP p).countP p = 0 := by
  induction l with
  | nil => rfl
  | cons a l ih =>
      by_cases ha : p a
      · rw [List.eraseP_cons_of_pos ha]
        rw [List.countP_cons_of_pos _ _ ha] at h
        omega
      · rw [List.eraseP_cons_of_neg ha, List.countP_cons_of_neg _ _ ha]
        rw [List.countP_cons_of_neg _ _ ha] at h
        exact ih h

/-- A delete-then-insert (`upsert_record`) leaves exactly one record for the
venue — the new one, which `find?` returns — and preserves the at-most-one
invariant for every venue. -/
theorem upsert_record_unique (db : List ExchangeAPIRec) (v : String)
    (encKey encSecret : FernetToken) (m : Bool)
    (hone : ∀ w, db.countP (fun r => r.exchange == w) ≤ 1) :
    (upsert_record db v encKey encSecret m).countP
        (fun r => r.exchange == v) = 1 ∧
    (upsert_record db v encKey encSecret m).find?
        (fun r => r.exchange == v) = some ⟨v, encKey, encSecret, m, true⟩ ∧
    (∀ w, (upsert_record db v encKey encSecret m).countP
        (fun r => r.exchange == w) ≤ 1) := by
  have h0 : ((db.eraseP (fun r => r.exchange == v)).countP
      (fun r => r.exchange == v)) = 0 :=
    countP_eraseP_self_eq_zero _ db (hone v)
  have hrec : (fun (r : ExchangeAPIRec) => r.exchange == v)
      ⟨v, encKey, encSecret, m, true⟩ = true := beq_self_eq_true v
  refine ⟨?_, ?_, ?_⟩
  · unfold upsert_record
    rw [List.countP_append, h0]
    simp [hrec]
  · unfold upsert_record
    rw [List.find?_append]
    have hnone : (db.eraseP (fun r => r.exchange == v)).find?
        (fun r => r.exchange == v) = none :=
      List.find?_eq_none.mpr (List.countP_eq_zero.mp h0)
    rw [hnone]
    simp [List.find?, hrec]
  · intro w
    unfold upsert_record
    rw [List.countP_append]
    by_cases hw : w = v
    · subst hw
      rw [h0]
      simp [hrec]
    · have hr : (fun (r : ExchangeAPIRec) => r.exchange == w)
          ⟨v, encKey, encSecret, m, true⟩ = false :=
        beq_eq_false_iff_ne.mpr (Ne.symm hw)
      have hsub : ((db.eraseP (fun r => r.exchange == v)).countP
          (fun r => r.exchange == w)) ≤ db.countP (fun r => r.exchange == w) :=
        (List.eraseP_sublist db).countP_le _
      have := hone w
      have hz : ([(⟨v, encKey, encSecret, m, true⟩ : ExchangeAPIRec)]).countP
          (fun r => r.exchange == w) = 0 := by
        simp [List.countP_cons, hr]
      rw [hz]
      omega

/-- C4: when the venue rejects the credentials — `validate_credentials`
returns false, or constructing the venue client raises — the add endpoint
surfaces an HTTP error to the caller and the credential store is not
mutated. -/
theorem add_api_keys_store_unchanged_on_invalid (exchange : String)
    (k s : List Nat) (m : Bool) (em : EncryptionManager) (n1 n2 : Nat)
    (db : List ExchangeAPIRec) (events : List EventRec) (st : BybitState)
    (ctorOk valid : Bool)
    (h : valid = false ∨ get_bybit_client st k s m ctorOk = .error ()) :
    (∃ e, (add_api_keys exchange k s m em n1 n2 db events st ctorOk
        valid).1 = .error e) ∧
    (add_api_keys exchange k s m em n1 n2 db events st ctorOk valid).2.1 =
      db := by
  unfold add_api_keys
  by_cases h1 : k = [] ∨ s = []
  · rw [if_pos h1]
    exact ⟨⟨.badRequest, rfl⟩, rfl⟩
  · rw [if_neg h1]
    by_cases h2 : strToLower exchange ≠ "bybit"
    · rw [if_pos h2]
      exact ⟨⟨.badRequest, rfl⟩, rfl⟩
    · rw [if_neg h2]
      rcases h with hv | herr
      · subst hv
        cases hg : get_bybit_client st k s m ctorOk with
        | error e =>
            simp only [hg]
            exact ⟨⟨.unauthorized, rfl⟩, trivial⟩
        | ok pr =>
            obtain ⟨c, st'⟩ := pr
            simp only [hg]
            exact ⟨⟨.unauthorized, rfl⟩, rfl⟩
      · simp only [herr]
        exact ⟨⟨.unauthorized, rfl⟩, trivial⟩

/-- Witness for C4 at a concrete rejected-credentials request. -/
theorem add_api_keys_store_unchanged_on_invalid_witness :
    (∃ e, (add_api_keys "bybit" [1] [2] false ⟨0⟩ 0 1 [] [] ⟨none, false⟩
        true false).1 = .error e) ∧
    (add_api_keys "bybit" [1] [2] false ⟨0⟩ 0 1 [] [] ⟨none, false⟩
        true false).2.1 = [] :=
  add_api_keys_store_unchanged_on_invalid "bybit" [1] [2] false ⟨0⟩ 0 1 [] []
    ⟨none, false⟩ true false (Or.inl rfl)

/-- C9 counterexample: a concrete fully successful add (venue accepts the
keys, record inserted) appends no event row — the event log stays empty, so
"exactly one event record is appended" fails. -/
theorem add_api_keys_no_event_counterexample :
    (add_api_keys "bybit" [1] [2] false ⟨0⟩ 0 1 [] [] ⟨none, false⟩ true
        true).1 = .ok ⟨"bybit", false⟩ ∧
    ¬ ((add_api_keys "bybit" [1] [2] false ⟨0⟩ 0 1 [] [] ⟨none, false⟩ true
        true).2.2.1.length = ([] : List EventRec).length + 1) := by
  constructor
  · rfl
  · intro h
    exact absurd h (by decide)

/-- C9 amended: the credential endpoints write no event rows at all — both
a successful add and a successful remove leave the event log exactly as it
was (no `Event` is appended, although the model declares the
`API_KEY_ADDED` event type). -/
theorem credential_endpoints_append_no_events (exchange : String)
    (k s : List Nat) (m : Bool) (em : EncryptionManager) (n1 n2 : Nat)
    (db : List ExchangeAPIRec) (events : List EventRec) (st : BybitState)
    (ctorOk valid : Bool) :
    (add_api_keys exchange k s m em n1 n2 db events st ctorOk
        valid).2.2.1 = events ∧
    (remove_api_keys exchange db events st).2.2.1 = events := by
  constructor
  · unfold add_api_keys
    by_cases h1 : k = [] ∨ s = []
    · rw [if_pos h1]
    · rw [if_neg h1]
      by_cases h2 : strToLower exchange ≠ "bybit"
      · rw [if_pos h2]
      · rw [if_neg h2]
        cases hg : get_bybit_client st k s m ctorOk with
        | error e => simp only [hg]
        | ok pr =>
            obtain ⟨c, st'⟩ := pr
            cases valid <;> simp [hg]
  · unfold remove_api_keys
    cases hf : db.find? (fun r => r.exchange == strToLower exchange) <;>
      simp [hf]

/-- C2: `remove` returns 404 and leaves everything untouched when no record
for the venue exists; when one exists (and the store satisfies its
at-most-one-per-venue uniqueness constraint) it deletes that record, resets
the session cache to absent, and any subsequent obtain — in particular one
with the very same credential triple — constructs a fresh client. -/
theorem remove_api_keys_spec (v : String) (db : List ExchangeAPIRec)
    (events : List EventRec) (st : BybitState) :
    (db.find? (fun r => r.exchange == strToLower v) = none →
       remove_api_keys v db events st = (.error .notFound, db, events, st)) ∧
    (∀ ex, db.find? (fun r => r.exchange == strToLower v) = some ex →
       db.countP (fun r => r.exchange == strToLower v) ≤ 1 →
       (remove_api_keys v db events st).1 = .ok () ∧
       (remove_api_keys v db events st).2.1.find?
           (fun r => r.exchange == strToLower v) = none ∧
       (remove_api_keys v db events st).2.2.2.client = none ∧
       (∀ k s m, get_bybit_client (remove_api_keys v db events st).2.2.2
           k s m true = .ok (⟨k, s, m⟩, ⟨some ⟨k, s, m⟩, m⟩))) := by
  constructor
  · intro h
    unfold remove_api_keys
    simp only [h]
  · intro ex hf hcount
    have hred : remove_api_keys v db events st =
        (.ok (), db.eraseP (fun r => r.exchange == strToLower v), events,
         reset_bybit_client st) := by
      unfold remove_api_keys
      rw [hf]
    refine ⟨?_, ?_, ?_, ?_⟩
    · rw [hred]
    · rw [hred]
      exact List.find?_eq_none.mpr
        (List.countP_eq_zero.mp (countP_eraseP_self_eq_zero _ db hcount))
    · rw [hred]
      rfl
    · intro k s m
      rw [hred]
      rfl

/-- Witness for C2: a concrete store holding one bybit record is emptied,
the session reset, and a fresh obtain constructs. -/
theorem remove_api_keys_spec_witness :
    (remove_api_keys "bybit"
        [⟨"bybit", ⟨0, [1], (0, 0, [1])⟩, ⟨0, [2], (0, 0, [2])⟩, false, true⟩]
        [] ⟨some ⟨[1], [2], false⟩, false⟩).1 = .ok () ∧
    (remove_api_keys "bybit"
        [⟨"bybit", ⟨0, [1], (0, 0, [1])⟩, ⟨0, [2], (0, 0, [2])⟩, false, true⟩]
        [] ⟨some ⟨[1], [2], false⟩, false⟩).2.1.find?
        (fun r => r.exchange == strToLower "bybit") = none ∧
    (remove_api_keys "bybit"
        [⟨"bybit", ⟨0, [1], (0, 0, [1])⟩, ⟨0, [2], (0, 0, [2])⟩, false, true⟩]
        [] ⟨some ⟨[1], [2], false⟩, false⟩).2.2.2.client = none ∧
    (∀ k s m, get_bybit_client
        (remove_api_keys "bybit"
          [⟨"bybit", ⟨0, [1], (0, 0, [1])⟩, ⟨0, [2], (0, 0, [2])⟩, false,
            true⟩]
          [] ⟨some ⟨[1], [2], false⟩, false⟩).2.2.2 k s m true =
        .ok (⟨k, s, m⟩, ⟨some ⟨k, s, m⟩, m⟩)) :=
  (remove_api_keys_spec "bybit"
      [⟨"bybit", ⟨0, [1], (0, 0, [1])⟩, ⟨0, [2], (0, 0, [2])⟩, false, true⟩]
      [] ⟨some ⟨[1], [2], false⟩, false⟩).2
    ⟨"bybit", ⟨0, [1], (0, 0, [1])⟩, ⟨0, [2], (0, 0, [2])⟩, false, true⟩
    (by decide) (by decide)

/-- With a non-raising constructor, `get_bybit_client` always returns a
client (either the cached one or a freshly built one). -/
theorem get_bybit_client_ctorOk_ok (st : BybitState) (k s : List Nat)
    (m : Bool) : ∃ c st', get_bybit_client st k s m true = .ok (c, st') := by
  obtain ⟨cl, tm⟩ := st
  cases cl with
  | none => exact ⟨⟨k, s, m⟩, ⟨some ⟨k, s, m⟩, m⟩, rfl⟩
  | some c =>
      by_cases hcond : tm ≠ m ∨ c.api_key ≠ k
      · exact ⟨⟨k, s, m⟩, ⟨some ⟨k, s, m⟩, m⟩,
          by simp [get_bybit_client, if_pos hcond]⟩
      · exact ⟨c, ⟨some c, tm⟩, by simp [get_bybit_client, if_neg hcond]⟩

/-- On a successful add (nonempty fields, venue name lowercasing to
"bybit", constructor succeeding, venue accepting the keys) the endpoint
returns ok and the store mutation is exactly `upsert_record` with the two
freshly encrypted secrets. -/
theorem add_api_keys_success_proj (exchange : String) (k s : List Nat)
    (m : Bool) (em : EncryptionManager) (n1 n2 : Nat)
    (db : List ExchangeAPIRec) (events : List EventRec) (st : BybitState)
    (hk : k ≠ []) (hs : s ≠ []) (hex : strToLower exchange = "bybit") :
    (add_api_keys exchange k s m em n1 n2 db events st true true).1 =
      .ok ⟨exchange, m⟩ ∧
    (add_api_keys exchange k s m em n1 n2 db events st true true).2.1 =
      upsert_record db (strToLower exchange) (em.encrypt n1 k)
        (em.encrypt n2 s) m := by
  obtain ⟨c, st', hok⟩ := get_bybit_client_ctorOk_ok st k s m
  have hred : add_api_keys exchange k s m em n1 n2 db events st true true =
      (.ok ⟨exchange, m⟩,
       upsert_record db (strToLower exchange) (em.encrypt n1 k)
         (em.encrypt n2 s) m,
       events, st') := by
    unfold add_api_keys
    rw [if_neg (by simp [hk, hs]), if_neg (by simp [hex]), hok]
    rfl
  rw [hred]
  exact ⟨rfl, rfl⟩

/-- C3: starting from a store satisfying the at-most-one-record-per-venue
uniqueness constraint, two successful upserts for the same venue both
succeed, and afterwards the store holds exactly one record for that venue:
the second call's encrypted key, encrypted secret and network-mode flag with
the connection flag true — `get` returns precisely that record — and the
at-most-one invariant still holds for every venue. -/
theorem upsert_replaces_record (v : String) (k1 s1 k2 s2 : List Nat)
    (m1 m2 : Bool) (em : EncryptionManager) (n1 n2 n3 n4 : Nat)
    (db : List ExchangeAPIRec) (ev1 ev2 : List EventRec)
    (st1 st2 : BybitState)
    (hk1 : k1 ≠ []) (hs1 : s1 ≠ []) (hk2 : k2 ≠ []) (hs2 : s2 ≠ [])
    (hv : strToLower v = "bybit")
    (hone : ∀ w, db.countP (fun r => r.exchange == w) ≤ 1) :
    (add_api_keys v k1 s1 m1 em n1 n2 db ev1 st1 true true).1 =
      .ok ⟨v, m1⟩ ∧
    (add_api_keys v k2 s2 m2 em n3 n4
        (add_api_keys v k1 s1 m1 em n1 n2 db ev1 st1 true true).2.1
        ev2 st2 true true).1 = .ok ⟨v, m2⟩ ∧
    (add_api_keys v k2 s2 m2 em n3 n4
        (add_api_keys v k1 s1 m1 em n1 n2 db ev1 st1 true true).2.1
        ev2 st2 true true).2.1.countP
        (fun r => r.exchange == strToLower v) = 1 ∧
    (add_api_keys v k2 s2 m2 em n3 n4
        (add_api_keys v k1 s1 m1 em n1 n2 db ev1 st1 true true).2.1
        ev2 st2 true true).2.1.find?
        (fun r => r.exchange == strToLower v) =
      some ⟨strToLower v, em.encrypt n3 k2, em.encrypt n4 s2, m2, true⟩ ∧
    (∀ w, (add_api_keys v k2 s2 m2 em n3 n4
        (add_api_keys v k1 s1 m1 em n1 n2 db ev1 st1 true true).2.1
        ev2 st2 true true).2.1.countP (fun r => r.exchange == w) ≤ 1) := by
  obtain ⟨h11, h12⟩ :=
    add_api_keys_success_proj v k1 s1 m1 em n1 n2 db ev1 st1 hk1 hs1 hv
  obtain ⟨h21, h22⟩ :=
    add_api_keys_success_proj v k2 s2 m2 em n3 n4
      (add_api_keys v k1 s1 m1 em n1 n2 db ev1 st1 true true).2.1
      ev2 st2 hk2 hs2 hv
  have hu1 := upsert_record_unique db (strToLower v) (em.encrypt n1 k1)
    (em.encrypt n2 s1) m1 hone
  have hone1 : ∀ w,
      ((add_api_keys v k1 s1 m1 em n1 n2 db ev1 st1 true true).2.1).countP
        (fun r => r.exchange == w) ≤ 1 := by
    rw [h12]
    exact hu1.2.2
  have hu2 := upsert_record_unique
    (add_api_keys v k1 s1 m1 em n1 n2 db ev1 st1 true true).2.1
    (strToLower v) (em.encrypt n3 k2) (em.encrypt n4 s2) m2 hone1
  refine ⟨h11, h21, ?_, ?_, ?_⟩
  · rw [h22]
    exact hu2.1
  · rw [h22]
    exact hu2.2.1
  · intro w
    rw [h22]
    exact hu2.2.2 w

/-- Witness for C3: two concrete successful upserts for "bybit"; the store
ends with exactly the second record and stays duplicate-free (checked here
for the venue itself and for an unrelated venue name). -/
theorem upsert_replaces_record_witness :
    (add_api_keys "bybit" [3] [4] true ⟨7⟩ 2 3
        (add_api_keys "bybit" [1] [2] false ⟨7⟩ 0 1 [] [] ⟨none, false⟩
          true true).2.1
        [] ⟨none, false⟩ true true).2.1.find?
        (fun r => r.exchange == strToLower "bybit") =
      some ⟨strToLower "bybit", EncryptionManager.encrypt ⟨7⟩ 2 [3],
        EncryptionManager.encrypt ⟨7⟩ 3 [4], true, true⟩ ∧
    (add_api_keys "bybit" [3] [4] true ⟨7⟩ 2 3
        (add_api_keys "bybit" [1] [2] false ⟨7⟩ 0 1 [] [] ⟨none, false⟩
          true true).2.1
        [] ⟨none, false⟩ true true).2.1.countP
        (fun r => r.exchange == "okx") ≤ 1 :=
  ⟨(upsert_replaces_record "bybit" [1] [2] [3] [4] false true ⟨7⟩ 0 1 2 3
      [] [] [] ⟨none, false⟩ ⟨none, false⟩ (by decide) (by decide)
      (by decide) (by decide) rfl (fun w => Nat.zero_le 1)).2.2.2.1,
   (upsert_replaces_record "bybit" [1] [2] [3] [4] false true ⟨7⟩ 0 1 2 3
      [] [] [] ⟨none, false⟩ ⟨none, false⟩ (by decide) (by decide)
      (by decide) (by decide) rfl (fun w => Nat.zero_le 1)).2.2.2.2 "okx"⟩

end Butiba
